import Mathlib

set_option linter.unusedVariables false

/-!
Shallow embedding of the asynchronous PostgreSQL driver
(src/src/lib-sql/driver-pgsql.c) and proofs about its documented behavior.

Vendor-library calls (libpq) are modelled as oracle parameters: each call
site that reads a value from the vendor library takes that value as an
explicit argument, so every embedded function is a pure, executable
translation of the corresponding C function.

C strings are modelled as `List Char` where character-level manipulation
happens (error messages, hex encoding) and as `String` where only whole
strings are compared or concatenated (query texts).
-/

/-- FSM states of the connection (`enum sql_db_state` from sql-api-private.h). -/
inductive SqlDbState
  | disconnected
  | connecting
  | idle
  | busy
deriving DecidableEq, Repr

/-- Vendor result statuses (`ExecStatusType`), as distinguished by the driver. -/
inductive PgExecStatus
  | emptyQuery
  | commandOk
  | tuplesOk
  | copyOut
  | copyIn
  | badResponse
  | nonfatalError
  | fatalError
deriving DecidableEq, Repr

/-- Abstraction of a vendor server result handle (`PGresult`): the fields the
driver reads from it (`PQresultStatus`, `PQntuples`, `PQresultErrorMessage`). -/
structure PgRes where
  status : PgExecStatus
  ntuples : Nat
  errorMsg : Option (List Char)
deriving DecidableEq, Repr

/-! ### Result row cursor: `driver_pgsql_result_next_row` -/

/-- The fields of `struct pgsql_result` that `driver_pgsql_result_next_row`
reads and writes: row count cache, row cursor, attached server result,
failure flag (`api.failed`). -/
structure SqlRes where
  rows : Nat
  rownum : Nat
  pgres : Option PgRes
  failed : Bool
deriving DecidableEq, Repr

/-- The tail of `driver_pgsql_result_next_row`: the `result->pgres == NULL`
check followed by the `switch (PQresultStatus(result->pgres))`.  Returns the
int return value, the updated result, and the updated `db->fatal_error`. -/
def next_row_status (r : SqlRes) (dbFatal : Bool) : Int × SqlRes × Bool :=
  match r.pgres with
  | none => (-1, { r with failed := true }, dbFatal)
  | some p =>
    match p.status with
    | .commandOk => (0, r, dbFatal)
    | .tuplesOk => ((if 0 < p.ntuples then 1 else 0), { r with rows := p.ntuples }, dbFatal)
    | .emptyQuery => (-1, { r with failed := true }, dbFatal)
    | .nonfatalError => (-1, { r with failed := true }, dbFatal)
    | _ => (-1, { r with failed := true }, true)

/-- `driver_pgsql_result_next_row`.  `nextPgres` is the value `PQgetResult`
would return when the cursor runs past the cached row count (the blocking
fetch of the next result packet). -/
def driver_pgsql_result_next_row (r : SqlRes) (dbFatal : Bool) (nextPgres : Option PgRes) :
    Int × SqlRes × Bool :=
  if r.rows ≠ 0 then
    if r.rownum + 1 < r.rows then (1, { r with rownum := r.rownum + 1 }, dbFatal)
    else
      match nextPgres with
      | none => (0, { r with rownum := r.rownum + 1, pgres := none }, dbFatal)
      | some p => next_row_status { r with rownum := r.rownum + 1, pgres := some p } dbFatal
  else
    next_row_status r dbFatal

/-! ### Result error accessor: `last_error`, `driver_pgsql_result_get_error` -/

/-- `last_error`: the connection's last vendor error (`PQerrorMessage`),
with one trailing newline stripped; `"(no error set)"` when absent. -/
def last_error (connMsg : Option (List Char)) : List Char :=
  match connMsg with
  | none => "(no error set)".toList
  | some msg => if msg.length = 0 ∨ msg.getLast? ≠ some '\n' then msg else msg.dropLast

/-- The fields of `struct pgsql_db` read and written by
`driver_pgsql_result_get_error`: the cached error string `db->error` and the
vendor connection's current error message (`PQerrorMessage(db->pg)`). -/
structure ErrConn where
  error : Option (List Char)
  connMsg : Option (List Char)
deriving DecidableEq, Repr

/-- The fields of `struct pgsql_result` read by
`driver_pgsql_result_get_error`: the timeout flag and the server result. -/
structure ErrRes where
  timeout : Bool
  pgres : Option PgRes
deriving DecidableEq, Repr

/-- `driver_pgsql_result_get_error`: returns the message and the updated
connection (with the message cached in `db->error`; `i_free_and_null` first). -/
def driver_pgsql_result_get_error (db : ErrConn) (r : ErrRes) : List Char × ErrConn :=
  let db0 : ErrConn := { db with error := none }
  if r.timeout then
    ("Query timed out".toList, { db0 with error := some "Query timed out".toList })
  else
    match r.pgres with
    | none =>
      let e := last_error db.connMsg
      (e, { db0 with error := some e })
    | some p =>
      match p.errorMsg with
      | none => ("(no error set)".toList, db0)
      | some msg =>
        let e := if msg.length = 0 ∨ msg.getLast? ≠ some '\n' then msg else msg.dropLast
        (e, { db0 with error := some e })

/-! ### Blob escaping: `driver_pgsql_escape_blob` and the vendor unescape -/

/-- One lowercase hex digit, as dovecot's `binary_to_hex_append` emits. -/
def hex_digit (n : Nat) : Char :=
  if n < 10 then Char.ofNat (48 + n) else Char.ofNat (87 + n)

/-- `binary_to_hex_append`: two lowercase hex digits per byte. -/
def binary_to_hex : List Nat → List Char
  | [] => []
  | b :: rest => hex_digit (b / 16) :: hex_digit (b % 16) :: binary_to_hex rest

/-- `driver_pgsql_escape_blob`: `"E'\\x"` + hex + `"'"`. -/
def driver_pgsql_escape_blob (data : List Nat) : List Char :=
  "E'\\x".toList ++ binary_to_hex data ++ ['\'']

/-- Value of one hex digit character, either case. -/
def hex_val (c : Char) : Option Nat :=
  if '0' ≤ c ∧ c ≤ '9' then some (c.toNat - 48)
  else if 'a' ≤ c ∧ c ≤ 'f' then some (c.toNat - 87)
  else if 'A' ≤ c ∧ c ≤ 'F' then some (c.toNat - 55)
  else none

/-- Decode a sequence of hex digit pairs into bytes. -/
def hex_pairs : List Char → Option (List Nat)
  | [] => some []
  | [_] => none
  | c1 :: c2 :: rest =>
    match hex_val c1, hex_val c2, hex_pairs rest with
    | some h, some l, some r => some ((h * 16 + l) :: r)
    | _, _, _ => none

/-- Modelled from the spec: the vendor bytea unescape (`PQunescapeBytea`)
called by `driver_pgsql_result_get_field_value_binary`; the function itself
lives in the vendor library, not in this repository.  It decodes the
PostgreSQL hex bytea text format: a leading `\x` followed by pairs of hex
digits.  Input not in that format is rejected (the vendor's legacy octal
escape format is not modelled). -/
def pg_unescape_bytea : List Char → Option (List Nat)
  | '\\' :: 'x' :: rest => hex_pairs rest
  | _ => none

/-! ### Field lookup: `driver_pgsql_result_find_field` and friends -/

/-- The `for (i = 0; i < fields_count; i++)` loop of
`driver_pgsql_result_find_field`, with the loop counter explicit. -/
def find_field_loop : List String → String → Nat → Int
  | [], _, _ => -1
  | f :: rest, name, i => if f = name then (i : Int) else find_field_loop rest name (i + 1)

/-- `driver_pgsql_result_find_field`: first index whose field name matches,
`-1` when none does. -/
def driver_pgsql_result_find_field (fields : List String) (name : String) : Int :=
  find_field_loop fields name 0

/-- `driver_pgsql_result_get_field_value`: the current row is modelled as a
list of optional strings, `none` standing for SQL NULL (`PQgetisnull`). -/
def driver_pgsql_result_get_field_value (row : List (Option String)) (idx : Nat) : Option String :=
  match row.get? idx with
  | some v => v
  | none => none

/-- `driver_pgsql_result_find_field_value`. -/
def driver_pgsql_result_find_field_value (fields : List String) (row : List (Option String))
    (name : String) : Option String :=
  let idx := driver_pgsql_result_find_field fields name
  if idx < 0 then none
  else driver_pgsql_result_get_field_value row idx.toNat

/-! ### Transaction commit, asynchronous path -/

/-- Observable outcome of `driver_pgsql_transaction_commit`: the queries put
on the wire in order, whether the commit callback ran synchronously inside
the commit call, and the error the commit callback received (`none` for a
clean commit). -/
structure CommitOut where
  sends : List String
  syncCb : Bool
  cbError : Option String
deriving DecidableEq, Repr

/-- The chain driven by `transaction_send_next` once `BEGIN` has succeeded:
pop the head statement and send it with `transaction_update_callback`, or
send `COMMIT` with `transaction_commit_callback` when the list is empty.
`f k` is the failure (the result's error string) of the k-th query sent from
this point on, `none` when that query succeeds.  On a statement failure
`transaction_update_callback` hands the result's error, unchanged, to
`transaction_commit_error_callback` and the chain stops. -/
def transaction_send_next : List String → (Nat → Option String) → List String × Option String
  | [], f => (["COMMIT"], f 0)
  | q :: rest, f =>
    match f 0 with
    | none =>
      let p := transaction_send_next rest (fun k => f (k + 1))
      (q :: p.1, p.2)
    | some e => ([q], some e)

/-- `driver_pgsql_transaction_commit` (the asynchronous commit entry point).
`failed`/`ctxError` are the transaction's `failed` flag and stored error at
commit time; `stmts` the buffered statements in FIFO order; `f k` the failure
of the k-th query put on the wire (index 0 is `BEGIN` on the multi-statement
path, or the lone statement on the single-statement path). -/
def driver_pgsql_transaction_commit (failed : Bool) (ctxError : Option String)
    (stmts : List String) (f : Nat → Option String) : CommitOut :=
  if failed ∨ stmts = [] then
    { sends := [], syncCb := true, cbError := if failed then ctxError else none }
  else
    match stmts with
    | [q] => { sends := [q], syncCb := false, cbError := f 0 }
    | _ =>
      match f 0 with
      | some e => { sends := ["BEGIN"], syncCb := false, cbError := some e }
      | none =>
        let p := transaction_send_next stmts (fun k => f (k + 1))
        { sends := "BEGIN" :: p.1, syncCb := false, cbError := p.2 }

/-! ### Transaction commit, synchronous multi-statement path -/

/-- `commit_multi_fail`: marks the transaction failed and formats the error
as `"<error> (query: <statement>)"`.  Returns the new `(failed, error)`. -/
def commit_multi_fail (resErr q : String) : Bool × Option String :=
  (true, some (resErr ++ " (query: " ++ q ++ ")"))

/-- The statement loop of `driver_pgsql_transaction_commit_multi`: send each
buffered query synchronously; on the first failure call `commit_multi_fail`
and break.  Returns (queries sent, failed flag, stored error). -/
def commit_multi_loop : List String → (Nat → Option String) → List String × Bool × Option String
  | [], _ => ([], false, none)
  | q :: rest, f =>
    match f 0 with
    | none =>
      let p := commit_multi_loop rest (fun k => f (k + 1))
      (q :: p.1, p.2.1, p.2.2)
    | some e =>
      let p := commit_multi_fail e q
      ([q], p.1, p.2)

/-- `driver_pgsql_transaction_commit_multi` (the synchronous multi-statement
commit): `BEGIN`, the statements until the first failure, then `COMMIT` on
success or `ROLLBACK` on failure; a failed `BEGIN` returns at once. -/
def driver_pgsql_transaction_commit_multi (stmts : List String) (f : Nat → Option String) :
    List String × Bool × Option String :=
  match f 0 with
  | some e =>
    let p := commit_multi_fail e "BEGIN"
    (["BEGIN"], p.1, p.2)
  | none =>
    let p := commit_multi_loop stmts (fun k => f (k + 1))
    ("BEGIN" :: p.1 ++ [if p.2.1 then "ROLLBACK" else "COMMIT"], p.2.1, p.2.2)

/-! ### `driver_pgsql_connect` -/

/-- How `driver_pgsql_connect` leaves its caller: `fatalAbort` models the
`i_fatal()` call (which never returns), the other two are the C return
values `-1` and `0`. -/
inductive ConnectRet
  | fatalAbort
  | minusOne
  | zero
deriving DecidableEq, Repr

/-- Side effects of `driver_pgsql_connect`: resulting FSM state, whether a
Write watch was registered, whether the connect timeout was armed. -/
structure ConnectEff where
  state : SqlDbState
  writeWatch : Bool
  timeoutArmed : Bool
deriving DecidableEq, Repr

/-- `driver_pgsql_connect`.  `handleCreated` is whether `PQconnectStart`
returned a handle; `statusBad` is whether `PQstatus` on the fresh handle is
`CONNECTION_BAD`. -/
def driver_pgsql_connect (handleCreated : Bool) (statusBad : Bool) : ConnectRet × ConnectEff :=
  if ¬handleCreated then
    (.fatalAbort, { state := .disconnected, writeWatch := false, timeoutArmed := false })
  else if statusBad then
    (.minusOne, { state := .disconnected, writeWatch := false, timeoutArmed := false })
  else
    (.zero, { state := .connecting, writeWatch := true, timeoutArmed := true })

/-! ### Connection trace model

One connection driven by the event loop.  Each step of the `Reachable`
relation is one C event handler run to completion; the values the handler
reads from the vendor library are oracle arguments of the step. -/

/-- The fields of `struct pgsql_result` tracked by the trace model.
`hasTimeout` is `result->to != NULL` (the query timeout is armed exactly
while the query is in flight). -/
structure QRes where
  hasTimeout : Bool
  pgres : Option PgExecStatus
  failed : Bool
  tryRetry : Bool
  timedOut : Bool
deriving DecidableEq, Repr

/-- Which handler the currently installed I/O watch (or pending event)
drives: none, `connect_callback`, the query pipeline
(`flush_callback`/`get_result`), or `consume_results`. -/
inductive IoPhase
  | off
  | connectPoll
  | queryFlight
  | draining
deriving DecidableEq, Repr

/-- The fields of `struct pgsql_db` tracked by the trace model, plus two
event counters: queries dispatched and user callbacks invoked.  `lastCb`
records the result value most recently handed to a user callback. -/
structure Conn where
  state : SqlDbState
  cur : Option QRes
  fatal : Bool
  phase : IoPhase
  dispatched : Nat
  cbCount : Nat
  lastCb : Option QRes
deriving DecidableEq, Repr

/-- A freshly initialized connection (`driver_pgsql_init_v`). -/
def Conn.init : Conn :=
  { state := .disconnected, cur := none, fatal := false, phase := .off,
    dispatched := 0, cbCount := 0, lastCb := none }

/-- `driver_pgsql_close`: clear the fatal flag, drop the I/O watch and
timers, go to Disconnected. -/
def driver_pgsql_close (db : Conn) : Conn :=
  { db with fatal := false, phase := .off, state := .disconnected }

/-- `driver_pgsql_set_idle`: close if a fatal error is pending, otherwise
return to Idle (no deferred continuation installed in this model). -/
def driver_pgsql_set_idle (db : Conn) : Conn :=
  if db.fatal then driver_pgsql_close db else { db with state := .idle }

/-- Outcome of one `consume_results` run: still busy (Read watch
reinstalled), or the drain finished with the given `PQstatus == BAD` flag. -/
inductive DrainOutcome
  | ioWait
  | done (connBad : Bool)
deriving DecidableEq, Repr

/-- `consume_results`: drain the remaining server results; on completion
close if the connection went bad, else return to idle. -/
def consume_results (db : Conn) (out : DrainOutcome) : Conn :=
  match out with
  | .ioWait => { db with phase := .draining }
  | .done connBad => if connBad then driver_pgsql_close db else driver_pgsql_set_idle db

/-- The fatal-error classification at the top of `result_finish`:
`PQstatus == CONNECTION_BAD`, a null fetched result handle, or a
`PGRES_FATAL_ERROR` result status (or a fatal error already recorded). -/
def finish_fatal (db : Conn) (connBad : Bool) (pgres : Option PgExecStatus) : Bool :=
  db.fatal || connBad || pgres.isNone || (pgres == some .fatalError)

/-- `driver_pgsql_result_free` on the asynchronous path (the driver's
reference drop destroys the result): detach the result, then drain the
remaining server results on success or advance the FSM on failure. -/
def driver_pgsql_result_free (db : Conn) (r : QRes) (drain : DrainOutcome) : Conn :=
  let db1 : Conn := { db with cur := none }
  if r.pgres.isSome ∧ db1.fatal = false then consume_results db1 drain
  else driver_pgsql_set_idle db1

/-- `result_finish`: remove the query timeout, classify fatal errors, mark
the result failed and try-retry on fatal, invoke the user callback exactly
once, then drop the driver's reference (`sql_result_unref` → free). -/
def result_finish (db : Conn) (r : QRes) (connBad : Bool) (drain : DrainOutcome) : Conn :=
  let r1 : QRes := { r with hasTimeout := false }
  let fatal := finish_fatal db connBad r1.pgres
  let r2 : QRes := if fatal then { r1 with failed := true, tryRetry := true } else r1
  let db1 : Conn := { db with fatal := fatal }
  let db2 : Conn := { db1 with cbCount := db1.cbCount + 1, lastCb := some r2 }
  driver_pgsql_result_free db2 r2 drain

/-- Outcome of the send part of `do_query`: the query went in flight
(flush pending or awaiting the server), or the pipeline completed within
the handler (send failure, or the result arrived synchronously) with the
given vendor readings. -/
inductive QueryOutcome
  | wait
  | complete (connBad : Bool) (pgres : Option PgExecStatus) (drain : DrainOutcome)
deriving DecidableEq, Repr

/-- `do_query` (entered from `driver_pgsql_query`/`driver_pgsql_exec`):
go Busy, attach a fresh result with the query timeout armed, send. -/
def do_query (db : Conn) (out : QueryOutcome) : Conn :=
  let r : QRes := { hasTimeout := true, pgres := none, failed := false,
                    tryRetry := false, timedOut := false }
  let db1 : Conn := { db with state := .busy, cur := some r, dispatched := db.dispatched + 1 }
  match out with
  | .wait => { db1 with phase := .queryFlight }
  | .complete connBad pgres drain => result_finish db1 { r with pgres := pgres } connBad drain

/-- Completion of an in-flight query (`flush_callback`/`get_result`): stop
the I/O watch, attach the fetched server result, finish. -/
def flight_complete (db : Conn) (connBad : Bool) (pgres : Option PgExecStatus)
    (drain : DrainOutcome) : Conn :=
  match db.cur with
  | some r => result_finish { db with phase := .off } { r with pgres := pgres } connBad drain
  | none => db

/-- `query_timeout`: stop the I/O watch, set the result's timeout flag,
finish (no server result was fetched). -/
def query_timeout (db : Conn) (connBad : Bool) (drain : DrainOutcome) : Conn :=
  match db.cur with
  | some r => result_finish { db with phase := .off } { r with timedOut := true } connBad drain
  | none => db

/-- `driver_pgsql_disconnect`: finish the in-flight result synchronously (if
its timeout is still armed), then force close. -/
def driver_pgsql_disconnect (db : Conn) (connBad : Bool) (drain : DrainOutcome) : Conn :=
  match db.cur with
  | some r =>
    if r.hasTimeout then
      driver_pgsql_close (result_finish { db with phase := .off } r connBad drain)
    else driver_pgsql_close db
  | none => driver_pgsql_close db

/-- The trace-level view of `driver_pgsql_connect` after a successful
`PQconnectStart`: immediate bad status closes, otherwise Connecting with the
connect poll watch installed. -/
def connect_begin (db : Conn) (statusBad : Bool) : Conn :=
  if statusBad then driver_pgsql_close db
  else { db with state := .connecting, phase := .connectPoll }

/-- Outcome of one `PQconnectPoll` round in `connect_callback`. -/
inductive PollOutcome
  | wantIo
  | ok
  | failed
deriving DecidableEq, Repr

/-- `connect_callback`: keep polling, reach Idle, or fail and close. -/
def connect_callback (db : Conn) (out : PollOutcome) : Conn :=
  match out with
  | .wantIo => db
  | .ok => { db with phase := .off, state := .idle }
  | .failed => driver_pgsql_close db

/-- All states of one connection reachable by driver operations and I/O
events, each step one event-handler run.  Guards are the C preconditions:
`do_query` requires `SQL_DB_IS_READY` (Idle), I/O completions require the
matching watch to be installed, the connect timeout requires Connecting. -/
inductive Reachable : Conn → Prop
  | init : Reachable Conn.init
  | connect (s : Conn) (bad : Bool) :
      Reachable s → s.state = .disconnected → Reachable (connect_begin s bad)
  | poll (s : Conn) (out : PollOutcome) :
      Reachable s → s.phase = .connectPoll → Reachable (connect_callback s out)
  | connectTimeout (s : Conn) :
      Reachable s → s.state = .connecting → Reachable (driver_pgsql_close s)
  | query (s : Conn) (out : QueryOutcome) :
      Reachable s → s.state = .idle → Reachable (do_query s out)
  | flight (s : Conn) (connBad : Bool) (pgres : Option PgExecStatus) (drain : DrainOutcome) :
      Reachable s → s.phase = .queryFlight → Reachable (flight_complete s connBad pgres drain)
  | timeout (s : Conn) (connBad : Bool) (drain : DrainOutcome) :
      Reachable s → s.phase = .queryFlight → Reachable (query_timeout s connBad drain)
  | drain (s : Conn) (out : DrainOutcome) :
      Reachable s → s.phase = .draining → Reachable (consume_results { s with phase := .off } out)
  | disconnect (s : Conn) (connBad : Bool) (drain : DrainOutcome) :
      Reachable s → Reachable (driver_pgsql_disconnect s connBad drain)

/-- The connection invariant maintained by every handler. -/
def ConnInv (s : Conn) : Prop :=
  s.fatal = false ∧
  (∀ r, s.cur = some r → s.state = .busy ∧ r.hasTimeout = true) ∧
  (s.phase = .queryFlight → s.state = .busy ∧ s.cur.isSome = true) ∧
  (s.phase = .draining → s.state = .busy ∧ s.cur = none) ∧
  (s.phase = .connectPoll → s.state = .connecting) ∧
  s.cbCount + (if s.cur.isSome then 1 else 0) = s.dispatched

/-- A connection that has connected successfully and sits Idle. -/
def connIdle : Conn := connect_callback (connect_begin Conn.init false) .ok

/-- An Idle connection that has dispatched a query now in flight. -/
def connFlight : Conn := do_query connIdle .wait

/-- An Idle connection whose query completed cleanly and whose extra-result
drain is waiting on the socket: the `consume_results` window. -/
def connDraining : Conn := do_query connIdle (.complete false (some .commandOk) .ioWait)

/-! ### Trace-model invariant -/

theorem inv_init : ConnInv Conn.init := by
  simp [ConnInv, Conn.init]

theorem cur_none_of_not_busy (s : Conn) (h : ConnInv s) (hs : s.state ≠ .busy) : s.cur = none := by
  cases hc : s.cur with
  | none => rfl
  | some r => exact absurd (h.2.1 r hc).1 hs

theorem cnt_of_cur_none (s : Conn) (h : ConnInv s) (hcur : s.cur = none) :
    s.cbCount = s.dispatched := by
  have hc := h.2.2.2.2.2
  rw [hcur] at hc
  simpa using hc

theorem cnt_of_cur_some (s : Conn) (h : ConnInv s) (r : QRes) (hcur : s.cur = some r) :
    s.cbCount + 1 = s.dispatched := by
  have hc := h.2.2.2.2.2
  rw [hcur] at hc
  simpa using hc

theorem phase_off_of_idle (s : Conn) (h : ConnInv s) (hs : s.state = .idle) : s.phase = .off := by
  cases hp : s.phase with
  | off => rfl
  | connectPoll => have := h.2.2.2.2.1 hp; rw [hs] at this; simp at this
  | queryFlight => have := (h.2.2.1 hp).1; rw [hs] at this; simp at this
  | draining => have := (h.2.2.2.1 hp).1; rw [hs] at this; simp at this

theorem inv_close (s : Conn) (hcur : s.cur = none) (hcnt : s.cbCount = s.dispatched) :
    ConnInv (driver_pgsql_close s) := by
  simp [ConnInv, driver_pgsql_close, hcur, hcnt]

theorem inv_set_idle (s : Conn) (hph : s.phase = .off) (hcur : s.cur = none)
    (hcnt : s.cbCount = s.dispatched) : ConnInv (driver_pgsql_set_idle s) := by
  unfold driver_pgsql_set_idle
  split
  · exact inv_close s hcur hcnt
  · next hf =>
    have hf' : s.fatal = false := by revert hf; cases s.fatal <;> simp
    simp [ConnInv, hph, hcur, hcnt, hf']

theorem inv_consume (s : Conn) (out : DrainOutcome) (hst : s.state = .busy) (hph : s.phase = .off)
    (hf : s.fatal = false) (hcur : s.cur = none) (hcnt : s.cbCount = s.dispatched) :
    ConnInv (consume_results s out) := by
  cases out with
  | ioWait => simp [ConnInv, consume_results, hst, hf, hcur, hcnt]
  | done connBad =>
    cases connBad with
    | true => simpa [consume_results] using inv_close s hcur hcnt
    | false => simpa [consume_results] using inv_set_idle s hph hcur hcnt

theorem inv_result_finish (s : Conn) (r : QRes) (connBad : Bool) (drain : DrainOutcome)
    (hst : s.state = .busy) (hph : s.phase = .off) (hf : s.fatal = false)
    (hcnt : s.cbCount + 1 = s.dispatched) : ConnInv (result_finish s r connBad drain) := by
  cases hfat : finish_fatal s connBad r.pgres with
  | true =>
    simp only [result_finish, driver_pgsql_result_free, hfat]
    simp only [if_true, Bool.true_eq_false, and_false, if_false, reduceIte]
    exact inv_set_idle _ (by simpa using hph) rfl (by simpa using hcnt)
  | false =>
    simp only [result_finish, driver_pgsql_result_free, hfat]
    simp only [Bool.false_eq_true, if_false, reduceIte]
    split
    · exact inv_consume _ drain (by simpa using hst) (by simpa using hph) rfl rfl
        (by simpa using hcnt)
    · exact inv_set_idle _ (by simpa using hph) rfl (by simpa using hcnt)

theorem close_cur (s : Conn) : (driver_pgsql_close s).cur = s.cur := rfl

theorem set_idle_cur (s : Conn) : (driver_pgsql_set_idle s).cur = s.cur := by
  unfold driver_pgsql_set_idle
  split <;> rfl

theorem consume_cur (s : Conn) (out : DrainOutcome) : (consume_results s out).cur = s.cur := by
  cases out with
  | ioWait => rfl
  | done connBad =>
    simp only [consume_results]
    split
    · rw [close_cur]
    · rw [set_idle_cur]

theorem result_finish_cur (s : Conn) (r : QRes) (connBad : Bool) (drain : DrainOutcome) :
    (result_finish s r connBad drain).cur = none := by
  simp only [result_finish, driver_pgsql_result_free]
  split <;> split
  · rw [consume_cur]
  · rw [set_idle_cur]
  · rw [consume_cur]
  · rw [set_idle_cur]

theorem reachable_inv (s : Conn) (h : Reachable s) : ConnInv s := by
  induction h with
  | init => exact inv_init
  | connect s bad hr hs ih =>
    have hcur : s.cur = none := cur_none_of_not_busy s ih (by rw [hs]; simp)
    have hcnt : s.cbCount = s.dispatched := cnt_of_cur_none s ih hcur
    cases bad with
    | true => simpa [connect_begin] using inv_close s hcur hcnt
    | false => simp [ConnInv, connect_begin, hcur, hcnt, ih.1]
  | poll s out hr hph ih =>
    have hst : s.state = .connecting := ih.2.2.2.2.1 hph
    have hcur : s.cur = none := cur_none_of_not_busy s ih (by rw [hst]; simp)
    have hcnt : s.cbCount = s.dispatched := cnt_of_cur_none s ih hcur
    cases out with
    | wantIo => simpa [connect_callback] using ih
    | ok => simp [ConnInv, connect_callback, hcur, hcnt, ih.1]
    | failed => simpa [connect_callback] using inv_close s hcur hcnt
  | connectTimeout s hr hst ih =>
    have hcur : s.cur = none := cur_none_of_not_busy s ih (by rw [hst]; simp)
    exact inv_close s hcur (cnt_of_cur_none s ih hcur)
  | query s out hr hst ih =>
    have hcur : s.cur = none := cur_none_of_not_busy s ih (by rw [hst]; simp)
    have hcnt : s.cbCount = s.dispatched := cnt_of_cur_none s ih hcur
    have hph : s.phase = .off := phase_off_of_idle s ih hst
    cases out with
    | wait => simp [ConnInv, do_query, hcnt, ih.1]
    | complete connBad pgres drain =>
      simp only [do_query]
      exact inv_result_finish _ _ connBad drain rfl (by simpa using hph)
        (by simpa using ih.1) (by simp [hcnt])
  | flight s connBad pgres drain hr hph ih =>
    cases hc : s.cur with
    | none => have := (ih.2.2.1 hph).2; rw [hc] at this; simp at this
    | some r =>
      simp only [flight_complete, hc]
      exact inv_result_finish _ _ connBad drain (by simpa using (ih.2.1 r hc).1) rfl
        (by simpa using ih.1) (by simpa using cnt_of_cur_some s ih r hc)
  | timeout s connBad drain hr hph ih =>
    cases hc : s.cur with
    | none => have := (ih.2.2.1 hph).2; rw [hc] at this; simp at this
    | some r =>
      simp only [query_timeout, hc]
      exact inv_result_finish _ _ connBad drain (by simpa using (ih.2.1 r hc).1) rfl
        (by simpa using ih.1) (by simpa using cnt_of_cur_some s ih r hc)
  | drain s out hr hph ih =>
    have hd := ih.2.2.2.1 hph
    exact inv_consume _ out (by simpa using hd.1) rfl (by simpa using ih.1)
      (by simpa using hd.2) (by simpa using cnt_of_cur_none s ih hd.2)
  | disconnect s connBad drain hr ih =>
    cases hc : s.cur with
    | none =>
      simp only [driver_pgsql_disconnect, hc]
      exact inv_close s hc (cnt_of_cur_none s ih hc)
    | some r =>
      have hT : r.hasTimeout = true := (ih.2.1 r hc).2
      simp only [driver_pgsql_disconnect, hc, hT, if_true]
      have hfin : ConnInv (result_finish { s with phase := .off } r connBad drain) :=
        inv_result_finish _ r connBad drain (by simpa using (ih.2.1 r hc).1) rfl
          (by simpa using ih.1) (by simpa using cnt_of_cur_some s ih r hc)
      have hcur2 := result_finish_cur { s with phase := .off } r connBad drain
      exact inv_close _ hcur2 (cnt_of_cur_none _ hfin hcur2)

theorem reachable_connIdle : Reachable connIdle :=
  Reachable.poll _ .ok (Reachable.connect _ false Reachable.init rfl) (by decide)

theorem reachable_connFlight : Reachable connFlight :=
  Reachable.query _ .wait reachable_connIdle (by decide)

theorem reachable_connDraining : Reachable connDraining :=
  Reachable.query _ (.complete false (some .commandOk) .ioWait) reachable_connIdle (by decide)

theorem result_finish_fatal_shape (s : Conn) (r : QRes) (connBad : Bool) (drain : DrainOutcome)
    (h : finish_fatal s connBad r.pgres = true) :
    (result_finish s r connBad drain).lastCb =
      some { r with hasTimeout := false, failed := true, tryRetry := true } ∧
    (result_finish s r connBad drain).state = .disconnected := by
  simp [result_finish, driver_pgsql_result_free, h, driver_pgsql_set_idle, driver_pgsql_close]

/-- C8 counterexample: a reachable state of the connection trace model that
is Busy with no pending Result attached — after a successful query's result
is freed, `consume_results` waits on the socket to drain the remaining
server results while the FSM state is still Busy.  This falsifies the
claimed implication `state = Busy ⇒ pending result ≠ ∅`. -/
theorem pgsql_busy_without_pending_result :
    Reachable connDraining ∧ connDraining.state = .busy ∧ connDraining.cur = none :=
  ⟨reachable_connDraining, by decide, by decide⟩

/-- C8 (amended): in every reachable state of one connection's trace, there
is at most one pending Result (a single slot, only filled from Idle where
none is attached), and a pending Result implies the state is Busy; the
converse direction `Busy ⇒ pending` does not hold (see the counterexample:
the extra-result drain runs in Busy with no attached result). -/
theorem pgsql_pending_result_invariant (s : Conn) (h : Reachable s) :
    (∀ r, s.cur = some r → s.state = .busy) ∧ (s.state = .idle → s.cur = none) := by
  have hi := reachable_inv s h
  refine ⟨fun r hc => (hi.2.1 r hc).1, fun hs => cur_none_of_not_busy s hi (by rw [hs]; simp)⟩

/-- Witness for C8 (amended) at the freshly initialized connection. -/
theorem pgsql_pending_result_invariant_witness :
    (∀ r, Conn.init.cur = some r → Conn.init.state = .busy) ∧
    (Conn.init.state = .idle → Conn.init.cur = none) :=
  pgsql_pending_result_invariant Conn.init Reachable.init

/-- C5: in every reachable state of one connection's trace, the number of
user callback invocations equals the number of dispatched queries minus the
(at most one) query still in flight; and disconnecting from any reachable
state (which finishes an in-flight Result synchronously) leaves the two
counts equal, so every dispatched query gets its callback exactly once. -/
theorem pgsql_callback_exactly_once (s : Conn) (h : Reachable s) :
    s.cbCount + (if s.cur.isSome then 1 else 0) = s.dispatched ∧
    ∀ connBad drain,
      (driver_pgsql_disconnect s connBad drain).cbCount =
        (driver_pgsql_disconnect s connBad drain).dispatched := by
  have hi := reachable_inv s h
  refine ⟨hi.2.2.2.2.2, ?_⟩
  intro connBad drain
  have h2 := reachable_inv _ (Reachable.disconnect s connBad drain h)
  have hcur : (driver_pgsql_disconnect s connBad drain).cur = none := by
    cases hc : s.cur with
    | none => simp [driver_pgsql_disconnect, hc, close_cur]
    | some r =>
      have hT : r.hasTimeout = true := (hi.2.1 r hc).2
      simp [driver_pgsql_disconnect, hc, hT, close_cur, result_finish_cur]
  exact cnt_of_cur_none _ h2 hcur

/-- Witness for C5 at the freshly initialized connection. -/
theorem pgsql_callback_exactly_once_witness :
    Conn.init.cbCount + (if Conn.init.cur.isSome then 1 else 0) = Conn.init.dispatched ∧
    ∀ connBad drain,
      (driver_pgsql_disconnect Conn.init connBad drain).cbCount =
        (driver_pgsql_disconnect Conn.init connBad drain).dispatched :=
  pgsql_callback_exactly_once Conn.init Reachable.init

/-- C7: at the finish path of an in-flight query, the connection's
fatal-error flag is set if and only if the vendor status is bad, the fetched
server result handle is null, or the result status is a fatal error; and
when it is set, the Result handed to the callback is marked failed and
try-retry and the connection ends up closed (Disconnected) instead of
returning to Idle. -/
theorem pgsql_fatal_error_classification (s : Conn) (connBad : Bool)
    (pgres : Option PgExecStatus) (drain : DrainOutcome)
    (h : Reachable s) (hph : s.phase = .queryFlight) :
    (finish_fatal s connBad pgres = true ↔
      (connBad = true ∨ pgres = none ∨ pgres = some .fatalError)) ∧
    (finish_fatal s connBad pgres = true →
      ∃ r, (flight_complete s connBad pgres drain).lastCb = some r ∧
        r.failed = true ∧ r.tryRetry = true ∧
        (flight_complete s connBad pgres drain).state = .disconnected) := by
  have hi := reachable_inv s h
  have hf : s.fatal = false := hi.1
  constructor
  · unfold finish_fatal
    rw [hf]
    simp [Bool.or_eq_true, Option.isNone_iff_eq_none, or_assoc]
  · intro hfat
    cases hc : s.cur with
    | none => have := (hi.2.2.1 hph).2; rw [hc] at this; simp at this
    | some r =>
      have hfat2 : finish_fatal { s with phase := IoPhase.off } connBad
          ({ r with pgres := pgres } : QRes).pgres = true := by
        simpa [finish_fatal] using hfat
      have hshape := result_finish_fatal_shape { s with phase := .off }
        { r with pgres := pgres } connBad drain hfat2
      exact ⟨{ hasTimeout := false, pgres := pgres, failed := true, tryRetry := true, timedOut := r.timedOut }, by simpa [flight_complete, hc] using hshape.1, rfl, rfl, by simpa [flight_complete, hc] using hshape.2⟩

/-- Witness for C7: an in-flight query finished with a null server result
handle on an otherwise good connection. -/
theorem pgsql_fatal_error_classification_witness :
    (finish_fatal connFlight false none = true ↔
      (false = true ∨ (none : Option PgExecStatus) = none ∨
        (none : Option PgExecStatus) = some .fatalError)) ∧
    (finish_fatal connFlight false none = true →
      ∃ r, (flight_complete connFlight false none .ioWait).lastCb = some r ∧
        r.failed = true ∧ r.tryRetry = true ∧
        (flight_complete connFlight false none .ioWait).state = .disconnected) :=
  pgsql_fatal_error_classification connFlight false none .ioWait reachable_connFlight (by decide)

theorem send_next_all_ok (stmts : List String) :
    ∀ f : Nat → Option String, (∀ k, k < stmts.length → f k = none) →
      (transaction_send_next stmts f).1 = stmts ++ ["COMMIT"] := by
  induction stmts with
  | nil => intro f hf; rfl
  | cons q rest ih =>
    intro f hf
    have h0 : f 0 = none := hf 0 (by simp)
    simp only [transaction_send_next, h0]
    rw [ih (fun k => f (k + 1)) (fun k hk => hf (k + 1) (by simp only [List.length_cons]; omega))]
    simp

theorem send_next_first_fail (stmts : List String) :
    ∀ (f : Nat → Option String) (i : Nat) (e : String), i < stmts.length →
      (∀ j, j < i → f j = none) → f i = some e →
      transaction_send_next stmts f = (stmts.take (i + 1), some e) := by
  induction stmts with
  | nil => intro f i e hi _ _; simp at hi
  | cons q rest ih =>
    intro f i e hi hj hfi
    cases i with
    | zero => simp [transaction_send_next, hfi]
    | succ n =>
      have h0 : f 0 = none := hj 0 (by omega)
      simp only [transaction_send_next, h0]
      rw [ih (fun k => f (k + 1)) n e (by simp only [List.length_cons] at hi; omega)
        (fun j hl => hj (j + 1) (by omega)) hfi]
      simp [List.take_succ_cons]

/-- C1: asynchronous `transaction_commit` wire behavior.  An empty or
already-failed transaction invokes the commit callback synchronously and
sends nothing; a single buffered statement is sent alone, with no
`BEGIN`/`COMMIT`; two or more statements are sent as `BEGIN`, the statements
in FIFO order, `COMMIT` when every query succeeds; and after the first
failing statement nothing further (in particular no `COMMIT`) is sent. -/
theorem pgsql_async_commit_wire_sequence (failed : Bool) (ctxError : Option String)
    (stmts : List String) (f : Nat → Option String) :
    ((failed = true ∨ stmts = []) →
      driver_pgsql_transaction_commit failed ctxError stmts f =
        { sends := [], syncCb := true, cbError := if failed then ctxError else none }) ∧
    (∀ q, failed = false → stmts = [q] →
      driver_pgsql_transaction_commit failed ctxError stmts f =
        { sends := [q], syncCb := false, cbError := f 0 }) ∧
    (failed = false → 2 ≤ stmts.length → (∀ k, k ≤ stmts.length → f k = none) →
      (driver_pgsql_transaction_commit failed ctxError stmts f).sends =
        "BEGIN" :: stmts ++ ["COMMIT"]) ∧
    (∀ i e, failed = false → 2 ≤ stmts.length → i < stmts.length →
      (∀ j, j ≤ i → f j = none) → f (i + 1) = some e →
      (driver_pgsql_transaction_commit failed ctxError stmts f).sends =
        "BEGIN" :: stmts.take (i + 1)) := by
  refine ⟨?_, ?_, ?_, ?_⟩
  · intro h
    cases h with
    | inl hf => simp [driver_pgsql_transaction_commit, hf]
    | inr hs => simp [driver_pgsql_transaction_commit, hs]
  · intro q hf hs
    subst hf hs
    simp [driver_pgsql_transaction_commit]
  · intro hf h2 hall
    subst hf
    match stmts, h2 with
    | a :: b :: tl, _ =>
      have h0 : f 0 = none := hall 0 (by omega)
      simp only [driver_pgsql_transaction_commit, h0]
      have hrest := send_next_all_ok (a :: b :: tl) (fun k => f (k + 1))
        (fun k hk => hall (k + 1) (by simp only [List.length_cons] at hk ⊢; omega))
      simp only [List.cons_ne_self] at *
      simp [hrest]
  · intro i e hf h2 hi hj hfi
    subst hf
    match stmts, h2 with
    | a :: b :: tl, _ =>
      have h0 : f 0 = none := hj 0 (by omega)
      simp only [driver_pgsql_transaction_commit, h0]
      have hrest := send_next_first_fail (a :: b :: tl) (fun k => f (k + 1)) i e hi
        (fun j hl => hj (j + 1) (by omega)) hfi
      simp [hrest]

/-- Witness for C1: two statements, every query succeeding. -/
theorem pgsql_async_commit_wire_sequence_witness :
    (driver_pgsql_transaction_commit false none ["A", "B"] (fun _ => none)).sends =
      "BEGIN" :: ["A", "B"] ++ ["COMMIT"] :=
  (pgsql_async_commit_wire_sequence false none ["A", "B"] (fun _ => none)).2.2.1 rfl
    (by decide) (fun k _ => rfl)

theorem multi_loop_first_fail (stmts : List String) :
    ∀ (f : Nat → Option String) (i : Nat) (e q : String), stmts.get? i = some q →
      (∀ j, j < i → f j = none) → f i = some e →
      commit_multi_loop stmts f =
        (stmts.take (i + 1), true, some (e ++ " (query: " ++ q ++ ")")) := by
  induction stmts with
  | nil => intro f i e q hget _ _; simp at hget
  | cons a rest ih =>
    intro f i e q hget hj hfi
    cases i with
    | zero =>
      simp only [List.get?_cons_zero, Option.some.injEq] at hget
      subst hget
      simp [commit_multi_loop, hfi, commit_multi_fail]
    | succ n =>
      have h0 : f 0 = none := hj 0 (by omega)
      simp only [commit_multi_loop, h0]
      rw [ih (fun k => f (k + 1)) n e q (by simpa using hget)
        (fun j hl => hj (j + 1) (by omega)) hfi]
      simp [List.take_succ_cons]

/-- C2 counterexample: a two-statement asynchronous commit whose second
statement fails with server error `"boom"`.  The commit callback receives
the raw error `"boom"`, not the claimed `"boom (query: B)"`: the
`"<error> (query: <statement>)"` formatting is not applied on the
asynchronous path. -/
theorem pgsql_async_error_not_formatted :
    (driver_pgsql_transaction_commit false none ["A", "B"]
      (fun k => if k = 2 then some "boom" else none)).cbError = some "boom" ∧
    "boom" ≠ "boom (query: B)" := by
  constructor
  · rfl
  · decide

/-- C2 (amended): when a statement of a multi-statement transaction fails,
no further statements are sent, and the error reaching the commit callback
depends on the path: the asynchronous path
(`transaction_update_callback` → `transaction_commit_error_callback`) hands
the result's error string through unchanged, while the synchronous path
(`driver_pgsql_transaction_commit_multi` via `commit_multi_fail`) marks the
transaction failed and stores `"<error> (query: <statement>)"`, then sends
`ROLLBACK`. -/
theorem pgsql_statement_failure_error_format (stmts : List String) (f : Nat → Option String)
    (i : Nat) (e q : String) :
    (2 ≤ stmts.length → i < stmts.length → (∀ j, j ≤ i → f j = none) → f (i + 1) = some e →
      (driver_pgsql_transaction_commit false none stmts f).cbError = some e ∧
      (driver_pgsql_transaction_commit false none stmts f).sends =
        "BEGIN" :: stmts.take (i + 1)) ∧
    (stmts.get? i = some q → (∀ j, j ≤ i → f j = none) → f (i + 1) = some e →
      (driver_pgsql_transaction_commit_multi stmts f).2.1 = true ∧
      (driver_pgsql_transaction_commit_multi stmts f).2.2 =
        some (e ++ " (query: " ++ q ++ ")") ∧
      (driver_pgsql_transaction_commit_multi stmts f).1 =
        "BEGIN" :: stmts.take (i + 1) ++ ["ROLLBACK"]) := by
  constructor
  · intro h2 hi hj hfi
    match stmts, h2 with
    | a :: b :: tl, _ =>
      have h0 : f 0 = none := hj 0 (by omega)
      simp only [driver_pgsql_transaction_commit, h0]
      have hrest := send_next_first_fail (a :: b :: tl) (fun k => f (k + 1)) i e hi
        (fun j hl => hj (j + 1) (by omega)) hfi
      simp [hrest]
  · intro hget hj hfi
    have h0 : f 0 = none := hj 0 (by omega)
    have hloop := multi_loop_first_fail stmts (fun k => f (k + 1)) i e q hget
      (fun j hl => hj (j + 1) (by omega)) hfi
    simp [driver_pgsql_transaction_commit_multi, h0, hloop]

/-- Witness for C2 (amended): statements `["X", "Y"]`, the second failing
with error `"err"`, on both commit paths. -/
theorem pgsql_statement_failure_error_format_witness :
    ((driver_pgsql_transaction_commit false none ["X", "Y"]
        (fun k => if k = 2 then some "err" else none)).cbError = some "err" ∧
      (driver_pgsql_transaction_commit false none ["X", "Y"]
        (fun k => if k = 2 then some "err" else none)).sends =
        "BEGIN" :: (["X", "Y"] : List String).take 2) ∧
    ((driver_pgsql_transaction_commit_multi ["X", "Y"]
        (fun k => if k = 2 then some "err" else none)).2.1 = true ∧
      (driver_pgsql_transaction_commit_multi ["X", "Y"]
        (fun k => if k = 2 then some "err" else none)).2.2 =
        some ("err" ++ " (query: " ++ "Y" ++ ")") ∧
      (driver_pgsql_transaction_commit_multi ["X", "Y"]
        (fun k => if k = 2 then some "err" else none)).1 =
        "BEGIN" :: (["X", "Y"] : List String).take 2 ++ ["ROLLBACK"]) := by
  constructor
  · exact (pgsql_statement_failure_error_format ["X", "Y"]
      (fun k => if k = 2 then some "err" else none) 1 "err" "Y").1 (by decide) (by decide)
      (fun j hj => by have hne : j ≠ 2 := by omega
                      simp [hne]) rfl
  · exact (pgsql_statement_failure_error_format ["X", "Y"]
      (fun k => if k = 2 then some "err" else none) 1 "err" "Y").2 rfl
      (fun j hj => by have hne : j ≠ 2 := by omega
                      simp [hne]) rfl

/-- C3: first call of `next_row` on a Result whose server result handle is
present: `COMMAND_OK` returns 0; `TUPLES_OK` caches the row count and
returns 1 when it is positive, 0 otherwise; `EMPTY_QUERY` and
`NONFATAL_ERROR` set the failed flag and return -1; every other status sets
the failed flag and the connection's fatal-error flag and returns -1. -/
theorem pgsql_next_row_first_call (r : SqlRes) (dbFatal : Bool) (nx : Option PgRes) (p : PgRes)
    (hrows : r.rows = 0) (hp : r.pgres = some p) :
    (p.status = .commandOk → driver_pgsql_result_next_row r dbFatal nx = (0, r, dbFatal)) ∧
    (p.status = .tuplesOk → driver_pgsql_result_next_row r dbFatal nx =
      ((if 0 < p.ntuples then 1 else 0), { r with rows := p.ntuples }, dbFatal)) ∧
    (p.status = .emptyQuery ∨ p.status = .nonfatalError →
      driver_pgsql_result_next_row r dbFatal nx = (-1, { r with failed := true }, dbFatal)) ∧
    (p.status ≠ .commandOk → p.status ≠ .tuplesOk → p.status ≠ .emptyQuery →
      p.status ≠ .nonfatalError →
      driver_pgsql_result_next_row r dbFatal nx = (-1, { r with failed := true }, true)) := by
  have hbase : driver_pgsql_result_next_row r dbFatal nx = next_row_status r dbFatal := by
    simp [driver_pgsql_result_next_row, hrows]
  refine ⟨?_, ?_, ?_, ?_⟩
  · intro hst
    rw [hbase]
    simp [next_row_status, hp, hst]
  · intro hst
    rw [hbase]
    simp [next_row_status, hp, hst]
  · intro hst
    rw [hbase]
    cases hst with
    | inl h => simp [next_row_status, hp, h]
    | inr h => simp [next_row_status, hp, h]
  · intro h1 h2 h3 h4
    rw [hbase]
    cases hs : p.status with
    | commandOk => exact absurd hs h1
    | tuplesOk => exact absurd hs h2
    | emptyQuery => exact absurd hs h3
    | nonfatalError => exact absurd hs h4
    | copyOut => simp [next_row_status, hp, hs]
    | copyIn => simp [next_row_status, hp, hs]
    | badResponse => simp [next_row_status, hp, hs]
    | fatalError => simp [next_row_status, hp, hs]

/-- Witness for C3: a fresh Result holding a `TUPLES_OK` server result with
three rows. -/
theorem pgsql_next_row_first_call_witness :
    driver_pgsql_result_next_row
      { rows := 0, rownum := 0,
        pgres := some { status := .tuplesOk, ntuples := 3, errorMsg := none }, failed := false }
      false none =
      ((if 0 < (3 : Nat) then 1 else 0),
        { rows := 3, rownum := 0,
          pgres := some { status := .tuplesOk, ntuples := 3, errorMsg := none },
          failed := false },
        false) :=
  (pgsql_next_row_first_call _ false none _ rfl rfl).2.1 rfl

/-- C4: `error()` precedence: the timeout flag yields the literal
"Query timed out"; an absent server result yields the connection's last
error; otherwise the server result's own message with one trailing newline
stripped; and the returned string is cached in `db->error`. -/
theorem pgsql_result_error_precedence (db : ErrConn) (r : ErrRes) :
    (r.timeout = true →
      (driver_pgsql_result_get_error db r).1 = "Query timed out".toList ∧
      (driver_pgsql_result_get_error db r).2.error =
        some ((driver_pgsql_result_get_error db r).1)) ∧
    (r.timeout = false → r.pgres = none →
      (driver_pgsql_result_get_error db r).1 = last_error db.connMsg ∧
      (driver_pgsql_result_get_error db r).2.error =
        some ((driver_pgsql_result_get_error db r).1)) ∧
    (∀ p m, r.timeout = false → r.pgres = some p → p.errorMsg = some m →
      (m.getLast? = some '\n' → (driver_pgsql_result_get_error db r).1 ++ ['\n'] = m) ∧
      (m.getLast? ≠ some '\n' → (driver_pgsql_result_get_error db r).1 = m) ∧
      (driver_pgsql_result_get_error db r).2.error =
        some ((driver_pgsql_result_get_error db r).1)) := by
  refine ⟨?_, ?_, ?_⟩
  · intro ht
    simp [driver_pgsql_result_get_error, ht]
  · intro ht hp
    simp [driver_pgsql_result_get_error, ht, hp]
  · intro p m ht hp hm
    simp only [driver_pgsql_result_get_error, ht, hp, hm, Bool.false_eq_true, if_false]
    refine ⟨?_, ?_, trivial⟩
    · intro hlast
      have hne : m ≠ [] := by
        intro h
        rw [h] at hlast
        simp at hlast
      have hcond : ¬(m.length = 0 ∨ m.getLast? ≠ some '\n') := by
        push_neg
        exact ⟨fun h => hne (List.length_eq_zero.mp h), hlast⟩
      rw [if_neg hcond]
      conv_rhs => rw [← List.dropLast_append_getLast hne]
      have hg : m.getLast hne = '\n' := by
        have := List.getLast?_eq_getLast m hne
        rw [hlast] at this
        exact (Option.some.injEq _ _).mp this.symm
      rw [hg]
    · intro hlast
      rw [if_pos (Or.inr hlast)]

/-- Witness for C4: a timed-out Result. -/
theorem pgsql_result_error_precedence_witness :
    (driver_pgsql_result_get_error { error := none, connMsg := none }
      { timeout := true, pgres := none }).1 = "Query timed out".toList ∧
    (driver_pgsql_result_get_error { error := none, connMsg := none }
      { timeout := true, pgres := none }).2.error =
      some ((driver_pgsql_result_get_error { error := none, connMsg := none }
        { timeout := true, pgres := none }).1) :=
  (pgsql_result_error_precedence _ _).1 rfl

/-- C6 counterexample: when the vendor connection handle cannot be created
(`PQconnectStart` returning NULL), `driver_pgsql_connect` does not return
-1 (nor 0): it aborts the process via `i_fatal`. -/
theorem pgsql_connect_no_handle_aborts :
    (driver_pgsql_connect false false).1 = .fatalAbort ∧
    ConnectRet.fatalAbort ≠ ConnectRet.minusOne ∧
    ConnectRet.fatalAbort ≠ ConnectRet.zero := by
  decide

/-- C6 (amended): `connect()` aborts fatally when the vendor handle cannot
be created; otherwise it returns -1 exactly when the fresh handle
immediately reports bad status, and 0 in all other cases, having begun the
asynchronous connect (Write watch registered, connect timeout armed,
state Connecting). -/
theorem pgsql_connect_return_value (hc sb : Bool) :
    ((driver_pgsql_connect hc sb).1 = .minusOne ↔ (hc = true ∧ sb = true)) ∧
    ((driver_pgsql_connect hc sb).1 = .zero ↔ (hc = true ∧ sb = false)) ∧
    (hc = false → (driver_pgsql_connect hc sb).1 = .fatalAbort) ∧
    ((driver_pgsql_connect hc sb).1 = .zero →
      (driver_pgsql_connect hc sb).2 =
        { state := .connecting, writeWatch := true, timeoutArmed := true }) := by
  cases hc <;> cases sb <;> decide

/-- Witness for C6 (amended): both returning cases. -/
theorem pgsql_connect_return_value_witness :
    (driver_pgsql_connect true true).1 = .minusOne ∧
    (driver_pgsql_connect true false).1 = .zero :=
  ⟨(pgsql_connect_return_value true true).1.mpr ⟨rfl, rfl⟩,
    (pgsql_connect_return_value true false).2.1.mpr ⟨rfl, rfl⟩⟩

theorem hex_val_hex_digit (d : Nat) (h : d < 16) : hex_val (hex_digit d) = some d := by
  interval_cases d <;> decide

theorem hex_pairs_binary_to_hex (data : List Nat) (h : ∀ b ∈ data, b < 256) :
    hex_pairs (binary_to_hex data) = some data := by
  induction data with
  | nil => rfl
  | cons b rest ih =>
    have hb : b < 256 := h b (by simp)
    have hdiv : b / 16 < 16 := by omega
    have hmod : b % 16 < 16 := by omega
    have htail : hex_pairs (binary_to_hex rest) = some rest := ih (fun x hx => h x (by simp [hx]))
    have hval : b / 16 * 16 + b % 16 = b := by omega
    simp [binary_to_hex, hex_pairs, hex_val_hex_digit _ hdiv, hex_val_hex_digit _ hmod,
      htail, hval]

/-- C9 counterexample: the vendor bytea unescape applied directly to the
output of `escape_blob` fails (the output carries the SQL literal wrapper
`E'...'`, which is not hex bytea format), so the claimed round trip does
not hold even for the one-byte string `[0]`. -/
theorem pgsql_unescape_escape_blob_fails :
    pg_unescape_bytea (driver_pgsql_escape_blob [0]) = none ∧
    (none : Option (List Nat)) ≠ some [0] := by
  constructor
  · rfl
  · decide

/-- C9 (amended): `escape_blob(b)` is exactly the SQL literal `E'` +
hex bytea text + `'`, and the vendor unescape applied to that hex bytea
payload (what the server hands back for the stored value, without the
literal wrapper) recovers exactly `b`; the direct composition
`unescape_bytea(escape_blob(b))` fails because of the wrapper. -/
theorem pgsql_escape_blob_roundtrip (data : List Nat) (h : ∀ b ∈ data, b < 256) :
    driver_pgsql_escape_blob data =
      ('E' :: '\'' :: []) ++ ('\\' :: 'x' :: binary_to_hex data) ++ ['\''] ∧
    pg_unescape_bytea ('\\' :: 'x' :: binary_to_hex data) = some data := by
  constructor
  · rfl
  · show hex_pairs (binary_to_hex data) = some data
    exact hex_pairs_binary_to_hex data h

/-- Witness for C9 (amended) on the bytes `[0, 255, 16]`. -/
theorem pgsql_escape_blob_roundtrip_witness :
    driver_pgsql_escape_blob [0, 255, 16] =
      ('E' :: '\'' :: []) ++ ('\\' :: 'x' :: binary_to_hex [0, 255, 16]) ++ ['\''] ∧
    pg_unescape_bytea ('\\' :: 'x' :: binary_to_hex [0, 255, 16]) = some [0, 255, 16] :=
  pgsql_escape_blob_roundtrip [0, 255, 16] (by decide)

theorem find_field_loop_spec (fields : List String) (name : String) :
    ∀ acc : Nat,
      (find_field_loop fields name acc = -1 ∧ ¬ name ∈ fields) ∨
      (∃ k, find_field_loop fields name acc = ((acc + k : Nat) : Int) ∧
        fields.get? k = some name ∧ ∀ j, j < k → fields.get? j ≠ some name) := by
  induction fields with
  | nil => intro acc; left; exact ⟨rfl, by simp⟩
  | cons a rest ih =>
    intro acc
    by_cases ha : a = name
    · right
      refine ⟨0, by simp [find_field_loop, ha], by simp [ha], ?_⟩
      intro j hj
      exact absurd hj (Nat.not_lt_zero j)
    · cases ih (acc + 1) with
      | inl hl =>
        left
        refine ⟨by simp [find_field_loop, ha, hl.1], ?_⟩
        intro hmem
        rcases List.mem_cons.mp hmem with h | h
        · exact ha h.symm
        · exact hl.2 h
      | inr hr =>
        obtain ⟨k, hk1, hk2, hk3⟩ := hr
        right
        refine ⟨k + 1, ?_, by simpa using hk2, ?_⟩
        · rw [show find_field_loop (a :: rest) name acc = find_field_loop rest name (acc + 1)
            from by simp [find_field_loop, ha]]
          rw [hk1]
          congr 1
          omega
        · intro j hj
          cases j with
          | zero => simp [ha]
          | succ n => simpa using hk3 n (by omega)

/-- C10 counterexample: with one field `"a"` whose value in the current row
is SQL NULL, `find_field` returns 0 (not -1) while `find_field_value`
returns absent — so `find_field_value` being absent is not equivalent to
`find_field` returning -1. -/
theorem pgsql_find_field_value_null_counterexample :
    driver_pgsql_result_find_field ["a"] "a" = 0 ∧
    driver_pgsql_result_find_field_value ["a"] [none] "a" = none ∧
    (0 : Int) ≠ -1 := by
  refine ⟨by decide, by decide, by decide⟩

/-- C10 (amended): `find_field` returns the smallest index whose field name
equals the argument, -1 when no field matches; `find_field_value` returns
absent when `find_field` returns -1 — without consulting the row, its value
then being independent of the row — and otherwise returns the found field's
row value, which is itself absent when that value is SQL NULL.  Hence
absence of the value does not imply absence of the field. -/
theorem pgsql_find_field_spec (fields : List String) (name : String) :
    (∀ i : Nat, driver_pgsql_result_find_field fields name = (i : Int) →
      fields.get? i = some name ∧ ∀ j, j < i → fields.get? j ≠ some name) ∧
    (driver_pgsql_result_find_field fields name = -1 ↔ ¬ name ∈ fields) ∧
    (driver_pgsql_result_find_field fields name = -1 →
      ∀ row, driver_pgsql_result_find_field_value fields row name = none) ∧
    (∀ i : Nat, driver_pgsql_result_find_field fields name = (i : Int) →
      ∀ row, driver_pgsql_result_find_field_value fields row name =
        driver_pgsql_result_get_field_value row i) := by
  have hspec := find_field_loop_spec fields name 0
  refine ⟨?_, ⟨?_, ?_⟩, ?_, ?_⟩
  · intro i hi
    simp only [driver_pgsql_result_find_field] at hi
    cases hspec with
    | inl hl =>
      rw [hl.1] at hi
      exact absurd hi (by omega)
    | inr hr =>
      obtain ⟨k, hk1, hk2, hk3⟩ := hr
      rw [hk1] at hi
      have hik : i = k := by omega
      subst hik
      exact ⟨hk2, hk3⟩
  · intro h1
    simp only [driver_pgsql_result_find_field] at h1
    cases hspec with
    | inl hl => exact hl.2
    | inr hr =>
      obtain ⟨k, hk1, _, _⟩ := hr
      rw [hk1] at h1
      exact absurd h1 (by omega)
  · intro hmem
    simp only [driver_pgsql_result_find_field]
    cases hspec with
    | inl hl => exact hl.1
    | inr hr =>
      obtain ⟨k, _, hk2, _⟩ := hr
      exact absurd (List.get?_mem hk2) hmem
  · intro h1 row
    simp [driver_pgsql_result_find_field_value, h1]
  · intro i hi row
    simp [driver_pgsql_result_find_field_value, hi]

/-- Witness for C10 (amended): fields `["a", "b"]`, looking up `"b"`. -/
theorem pgsql_find_field_spec_witness :
    (["a", "b"] : List String).get? 1 = some "b" ∧
    ∀ j, j < 1 → (["a", "b"] : List String).get? j ≠ some "b" :=
  (pgsql_find_field_spec ["a", "b"] "b").1 1 (by decide)
